import Mathlib

/-!
Verification of the iCal shift-normalization script.

The script fetches an iCal feed, sanitizes the text, parses it, rewrites the
start and end times of shift events according to two fixed Amsterdam-local
rules, and writes the result to a fixed output directory.

Time model: an instant is an integer count of microseconds since the Unix
epoch (Python datetime resolution). A timezone-aware local datetime, as
produced by astimezone with the pytz Europe/Amsterdam zone, is represented by
its local wall-clock value (instant plus offset) together with the fixed UTC
offset that pytz pins on the value; datetime.replace keeps that pinned offset,
and astimezone(timezone.utc) subtracts it. The Europe/Amsterdam offset is
modelled by the current EU daylight-saving rules (in force since 1996, and
covering every date the script is used on): UTC+01:00, switching to UTC+02:00
between 01:00 UTC on the last Sunday of March and 01:00 UTC on the last
Sunday of October. Division and remainder below are Euclidean, which agrees
with Python floor division for the positive divisors used here.
-/

/-- Days from civil date, proleptic Gregorian calendar (day 0 = 1970-01-01). -/
def daysFromCivil (y m d : Int) : Int :=
  let yy := y - (if m ≤ 2 then 1 else 0)
  let era := yy / 400
  let yoe := yy - era * 400
  let doy := (153 * (m + (if m > 2 then (-3 : Int) else 9)) + 2) / 5 + d - 1
  let doe := yoe * 365 + yoe / 4 - yoe / 100 + doy
  era * 146097 + doe - 719468

/-- Civil date (year, month, day) of a day number (day 0 = 1970-01-01). -/
def civilFromDays (z0 : Int) : Int × Int × Int :=
  let z := z0 + 719468
  let era := z / 146097
  let doe := z - era * 146097
  let yoe := (doe - doe / 1461 + doe / 36524 - doe / 146096) / 365
  let y := yoe + era * 400
  let doy := doe - (365 * yoe + yoe / 4 - yoe / 100)
  let mp := (5 * doy + 2) / 153
  let d := doy - (153 * mp + 2) / 5 + 1
  let m := mp + (if mp < 10 then 3 else -9)
  (y + (if m ≤ 2 then 1 else 0), m, d)

/-- Day number of the Sunday on or before day d (day 0 = 1970-01-01 was a Thursday). -/
def lastSundayDay (d : Int) : Int := d - (d + 4) % 7

/-- Civil year of the UTC day containing an instant (microseconds since epoch). -/
def yearOf (t : Int) : Int := (civilFromDays (t / 86400000000)).1

/-- Instant (microseconds) at which daylight-saving time starts in a year:
01:00 UTC on the last Sunday of March. -/
def marchCutoff (y : Int) : Int :=
  lastSundayDay (daysFromCivil y 3 31) * 86400000000 + 3600000000

/-- Instant (microseconds) at which daylight-saving time ends in a year:
01:00 UTC on the last Sunday of October. -/
def octCutoff (y : Int) : Int :=
  lastSundayDay (daysFromCivil y 10 31) * 86400000000 + 3600000000

/-- UTC offset, in microseconds, of the Europe/Amsterdam zone at an instant. -/
def amsOffset (t : Int) : Int :=
  if marchCutoff (yearOf t) ≤ t ∧ t < octCutoff (yearOf t) then 7200000000 else 3600000000

/-- Local Amsterdam wall-clock value of an instant, as a microsecond count:
models start_utc.astimezone(tz) at line 53 of the script. -/
def wallOf (t : Int) : Int := t + amsOffset t

/-- Hour field of a wall-clock microsecond count. -/
def hourOf (w : Int) : Int := w % 86400000000 / 3600000000

/-- Minute field of a wall-clock microsecond count. -/
def minuteOf (w : Int) : Int := w % 3600000000 / 60000000

/-- Day field (local calendar day number) of a wall-clock microsecond count. -/
def dayOf (w : Int) : Int := w / 86400000000

/-- Second-and-microsecond remainder of a wall-clock microsecond count. -/
def secMicro (w : Int) : Int := w % 60000000

/-- Model of datetime.replace(hour, minute) on a local wall-clock value: the
day, second and microsecond are preserved, and the pinned offset is untouched. -/
def replaceHM (h m w : Int) : Int :=
  dayOf w * 86400000000 + h * 3600000000 + m * 60000000 + secMicro w

/-- The two shift rules applied to the local wall-clock start and end
(lines 58 to 63 of the script): if the local start is 08:45 the start is
rewritten to 09:00 and the end to 13:00; else if it is 13:45 the start is
rewritten to 13:00 and the end to 17:00; else both pass through. -/
def shiftWalls (sw ew : Int) : Int × Int :=
  if hourOf sw = 8 ∧ minuteOf sw = 45 then (replaceHM 9 0 sw, replaceHM 13 0 ew)
  else if hourOf sw = 13 ∧ minuteOf sw = 45 then (replaceHM 13 0 sw, replaceHM 17 0 ew)
  else (sw, ew)

/-- The whole time adjustment of one event (lines 53 to 67): convert both
instants to Amsterdam local time, apply the shift rules to the wall clocks,
and convert back to UTC by subtracting the pinned offsets. -/
def adjustTimes (s e : Int) : Int × Int :=
  ((shiftWalls (wallOf s) (wallOf e)).1 - amsOffset s,
   (shiftWalls (wallOf s) (wallOf e)).2 - amsOffset e)

/- Arithmetic facts about the model. -/

theorem amsOffset_cases (t : Int) : amsOffset t = 3600000000 ∨ amsOffset t = 7200000000 := by
  unfold amsOffset
  split
  · exact Or.inr rfl
  · exact Or.inl rfl

theorem marchCutoff_emod (y : Int) :
    marchCutoff y % 86400000000 = 3600000000 := by
  unfold marchCutoff
  omega

theorem octCutoff_emod (y : Int) :
    octCutoff y % 86400000000 = 3600000000 := by
  unfold octCutoff
  omega

/-- Decomposition of a wall-clock value into hour, minute and sub-minute parts. -/
theorem wall_decomp (w : Int) :
    w % 86400000000 =
      hourOf w * 3600000000 + minuteOf w * 60000000 + w % 60000000 ∧
    0 ≤ minuteOf w ∧ minuteOf w < 60 ∧ 0 ≤ hourOf w ∧ hourOf w < 24 := by
  have h1 : w % 86400000000 % 3600000000 = w % 3600000000 :=
    Int.emod_emod_of_dvd w ⟨24, by norm_num⟩
  have h2 : w % 3600000000 % 60000000 = w % 60000000 :=
    Int.emod_emod_of_dvd w ⟨60, by norm_num⟩
  unfold hourOf minuteOf
  omega

/-- The Amsterdam offset is constant on an interval that stays inside one UTC
day and does not cross the 01:00 UTC point of that day, because every
daylight-saving transition happens at 01:00 UTC. -/
theorem amsOffset_const (t u : Int) (hle : t ≤ u)
    (hday : t / 86400000000 = u / 86400000000)
    (hside : 3600000000 ≤ t % 86400000000 ∨ u % 86400000000 < 3600000000) :
    amsOffset u = amsOffset t := by
  have hy : yearOf u = yearOf t := by
    unfold yearOf
    rw [hday]
  have hmc : marchCutoff (yearOf t) % 86400000000 = 3600000000 := marchCutoff_emod _
  have hoc : octCutoff (yearOf t) % 86400000000 = 3600000000 := octCutoff_emod _
  unfold amsOffset
  rw [hy]
  split_ifs with h1 h2 h2
  · rfl
  · exfalso
    rcases hside with hs | hs <;> omega
  · exfalso
    rcases hside with hs | hs <;> omega
  · rfl

/- Branch behaviour of the shift rules. -/

theorem shiftWalls_morning (sw ew : Int) (h8 : hourOf sw = 8) (h45 : minuteOf sw = 45) :
    shiftWalls sw ew = (replaceHM 9 0 sw, replaceHM 13 0 ew) := by
  unfold shiftWalls
  rw [if_pos ⟨h8, h45⟩]

theorem shiftWalls_afternoon (sw ew : Int) (h13 : hourOf sw = 13) (h45 : minuteOf sw = 45) :
    shiftWalls sw ew = (replaceHM 13 0 sw, replaceHM 17 0 ew) := by
  unfold shiftWalls
  rw [if_neg (by intro hc; omega), if_pos ⟨h13, h45⟩]

/-- When neither rule matches, the conversion round-trip returns the original
instants unchanged. -/
theorem adjust_pass (s e : Int)
    (h1 : ¬(hourOf (wallOf s) = 8 ∧ minuteOf (wallOf s) = 45))
    (h2 : ¬(hourOf (wallOf s) = 13 ∧ minuteOf (wallOf s) = 45)) :
    adjustTimes s e = (s, e) := by
  unfold adjustTimes shiftWalls
  rw [if_neg h1, if_neg h2]
  dsimp only
  unfold wallOf
  simp only [Prod.mk.injEq]
  constructor <;> ring

theorem replace_morning (w : Int) (h8 : hourOf w = 8) (h45 : minuteOf w = 45) :
    replaceHM 9 0 w = w + 900000000 := by
  have hd := wall_decomp w
  unfold replaceHM dayOf secMicro
  omega

theorem replace_afternoon (w : Int) (h13 : hourOf w = 13) (h45 : minuteOf w = 45) :
    replaceHM 13 0 w = w - 2700000000 := by
  have hd := wall_decomp w
  unfold replaceHM dayOf secMicro
  omega

theorem adjust_morning (s e : Int)
    (h8 : hourOf (wallOf s) = 8) (h45 : minuteOf (wallOf s) = 45) :
    adjustTimes s e = (s + 900000000, replaceHM 13 0 (wallOf e) - amsOffset e) := by
  unfold adjustTimes
  rw [shiftWalls_morning _ _ h8 h45]
  dsimp only
  rw [replace_morning _ h8 h45]
  simp only [Prod.mk.injEq, and_true]
  unfold wallOf
  ring

theorem adjust_afternoon (s e : Int)
    (h13 : hourOf (wallOf s) = 13) (h45 : minuteOf (wallOf s) = 45) :
    adjustTimes s e = (s - 2700000000, replaceHM 17 0 (wallOf e) - amsOffset e) := by
  unfold adjustTimes
  rw [shiftWalls_afternoon _ _ h13 h45]
  dsimp only
  rw [replace_afternoon _ h13 h45]
  simp only [Prod.mk.injEq, and_true]
  unfold wallOf
  ring

/-- Moving a morning-shift start forward by 15 minutes never crosses a
daylight-saving transition, so the offset is unchanged. -/
theorem morning_off (s : Int)
    (h8 : hourOf (wallOf s) = 8) (h45 : minuteOf (wallOf s) = 45) :
    amsOffset (s + 900000000) = amsOffset s := by
  have hd := wall_decomp (wallOf s)
  have hc := amsOffset_cases s
  have hw : wallOf s = s + amsOffset s := rfl
  apply amsOffset_const
  · omega
  · rcases hc with h | h <;> omega
  · left
    rcases hc with h | h <;> omega

/-- Moving an afternoon-shift start back by 45 minutes never crosses a
daylight-saving transition, so the offset is unchanged. -/
theorem afternoon_off (s : Int)
    (h13 : hourOf (wallOf s) = 13) (h45 : minuteOf (wallOf s) = 45) :
    amsOffset (s - 2700000000) = amsOffset s := by
  have hd := wall_decomp (wallOf s)
  have hc := amsOffset_cases s
  have hw : wallOf s = s + amsOffset s := rfl
  have h := amsOffset_const (s - 2700000000) s
    (by omega)
    (by rcases hc with h | h <;> omega)
    (by left; rcases hc with h | h <;> omega)
  exact h.symm

/-- Local fields of the output start of a morning-shift event. -/
theorem morning_local (s e : Int)
    (h8 : hourOf (wallOf s) = 8) (h45 : minuteOf (wallOf s) = 45) :
    dayOf (wallOf ((adjustTimes s e).1)) = dayOf (wallOf s) ∧
    hourOf (wallOf ((adjustTimes s e).1)) = 9 ∧
    minuteOf (wallOf ((adjustTimes s e).1)) = 0 ∧
    secMicro (wallOf ((adjustTimes s e).1)) = secMicro (wallOf s) := by
  rw [adjust_morning s e h8 h45]
  dsimp only
  have hw1 : wallOf (s + 900000000) = wallOf s + 900000000 := by
    unfold wallOf
    rw [morning_off s h8 h45]
    ring
  rw [hw1]
  have hd := wall_decomp (wallOf s)
  unfold dayOf hourOf minuteOf secMicro
  omega

/-- Local fields of the output start of an afternoon-shift event. -/
theorem afternoon_local (s e : Int)
    (h13 : hourOf (wallOf s) = 13) (h45 : minuteOf (wallOf s) = 45) :
    dayOf (wallOf ((adjustTimes s e).1)) = dayOf (wallOf s) ∧
    hourOf (wallOf ((adjustTimes s e).1)) = 13 ∧
    minuteOf (wallOf ((adjustTimes s e).1)) = 0 ∧
    secMicro (wallOf ((adjustTimes s e).1)) = secMicro (wallOf s) := by
  rw [adjust_afternoon s e h13 h45]
  dsimp only
  have hw1 : wallOf (s - 2700000000) = wallOf s - 2700000000 := by
    unfold wallOf
    rw [afternoon_off s h13 h45]
    ring
  rw [hw1]
  have hd := wall_decomp (wallOf s)
  unfold dayOf hourOf minuteOf secMicro
  omega

/-- Local fields of a rewritten end instant, under the proviso that the pinned
offset used for the reconversion agrees with the zone offset at the result. -/
theorem replace_local (hh mm : Int)
    (hh0 : 0 ≤ hh) (hh24 : hh < 24) (hm0 : 0 ≤ mm) (hm60 : mm < 60) (e : Int)
    (hoff : amsOffset (replaceHM hh mm (wallOf e) - amsOffset e) = amsOffset e) :
    dayOf (wallOf (replaceHM hh mm (wallOf e) - amsOffset e)) = dayOf (wallOf e) ∧
    hourOf (wallOf (replaceHM hh mm (wallOf e) - amsOffset e)) = hh ∧
    minuteOf (wallOf (replaceHM hh mm (wallOf e) - amsOffset e)) = mm ∧
    secMicro (wallOf (replaceHM hh mm (wallOf e) - amsOffset e)) = secMicro (wallOf e) := by
  set W := wallOf e with hW
  set A := amsOffset e with hA
  have hwx : wallOf (replaceHM hh mm W - A) = replaceHM hh mm W := by
    unfold wallOf
    rw [hoff]
    ring
  rw [hwx]
  have hd := wall_decomp W
  unfold replaceHM dayOf hourOf minuteOf secMicro
  omega

/-- C1 (amended): for every event with both instants whose Amsterdam-local
start reads 08:45, the output start converts to Amsterdam local 09:00 on the
same day with second and sub-second parts preserved; the output end is the
end wall-clock rewritten to 13:00 on the end instant's original local day
(seconds preserved) reconverted to UTC with the end's pinned offset, and
whenever the Amsterdam offset at the resulting end instant equals that pinned
offset — always, except at a daylight-saving transition edge — the output end
converts to Amsterdam local 13:00 on that same day. -/
theorem C1_morning_shift (s e : Int)
    (h8 : hourOf (wallOf s) = 8) (h45 : minuteOf (wallOf s) = 45) :
    dayOf (wallOf ((adjustTimes s e).1)) = dayOf (wallOf s) ∧
    hourOf (wallOf ((adjustTimes s e).1)) = 9 ∧
    minuteOf (wallOf ((adjustTimes s e).1)) = 0 ∧
    secMicro (wallOf ((adjustTimes s e).1)) = secMicro (wallOf s) ∧
    (adjustTimes s e).2 = replaceHM 13 0 (wallOf e) - amsOffset e ∧
    (amsOffset ((adjustTimes s e).2) = amsOffset e →
      dayOf (wallOf ((adjustTimes s e).2)) = dayOf (wallOf e) ∧
      hourOf (wallOf ((adjustTimes s e).2)) = 13 ∧
      minuteOf (wallOf ((adjustTimes s e).2)) = 0 ∧
      secMicro (wallOf ((adjustTimes s e).2)) = secMicro (wallOf e)) := by
  have hloc := morning_local s e h8 h45
  have hsnd : (adjustTimes s e).2 = replaceHM 13 0 (wallOf e) - amsOffset e := by
    rw [adjust_morning s e h8 h45]
  refine ⟨hloc.1, hloc.2.1, hloc.2.2.1, hloc.2.2.2, hsnd, ?_⟩
  intro hoff
  rw [hsnd] at hoff
  rw [hsnd]
  exact replace_local 13 0 (by norm_num) (by norm_num) (by norm_num) (by norm_num) e hoff

/-- C1 counterexample: the event with start 2024-03-30T07:45:00Z (08:45
Amsterdam) and end 2024-03-31T00:30:00Z (01:30 Amsterdam, just before the
spring daylight-saving transition) is rewritten to an end instant whose
Amsterdam local time is 14:00, not 13:00 as the claim states: the pinned
winter offset is applied to a wall-clock on the summer side of the switch. -/
theorem C1_counterexample :
    hourOf (wallOf 1711784700000000) = 8 ∧
    minuteOf (wallOf 1711784700000000) = 45 ∧
    hourOf (wallOf ((adjustTimes 1711784700000000 1711845000000000).2)) = 14 ∧
    ¬ hourOf (wallOf ((adjustTimes 1711784700000000 1711845000000000).2)) = 13 := by
  decide

/-- C1 witness: the E1 scenario, start 2024-01-10T07:45:00Z (08:45 Amsterdam
in winter) and end 2024-01-10T08:30:00Z, is rewritten to 08:00Z (09:00 local)
and 12:00Z (13:00 local). -/
theorem C1_witness :
    hourOf (wallOf ((adjustTimes 1704872700000000 1704875400000000).1)) = 9 ∧
    minuteOf (wallOf ((adjustTimes 1704872700000000 1704875400000000).1)) = 0 ∧
    hourOf (wallOf ((adjustTimes 1704872700000000 1704875400000000).2)) = 13 ∧
    adjustTimes 1704872700000000 1704875400000000 =
      (1704873600000000, 1704888000000000) := by
  have h := C1_morning_shift 1704872700000000 1704875400000000 (by decide) (by decide)
  exact ⟨h.2.1, h.2.2.1, (h.2.2.2.2.2 (by decide)).2.1, by decide⟩

/-- C2 (amended): for every event with both instants whose Amsterdam-local
start reads 13:45, the first rule does not fire and the second does: the
output start converts to Amsterdam local 13:00 on the same day with seconds
preserved; the output end is the end wall-clock rewritten to 17:00 on the end
instant's original local day reconverted with the end's pinned offset, and
whenever the Amsterdam offset at the resulting end instant equals that pinned
offset — always, except at a daylight-saving transition edge — the output end
converts to Amsterdam local 17:00 on that same day. -/
theorem C2_afternoon_shift (s e : Int)
    (h13 : hourOf (wallOf s) = 13) (h45 : minuteOf (wallOf s) = 45) :
    dayOf (wallOf ((adjustTimes s e).1)) = dayOf (wallOf s) ∧
    hourOf (wallOf ((adjustTimes s e).1)) = 13 ∧
    minuteOf (wallOf ((adjustTimes s e).1)) = 0 ∧
    secMicro (wallOf ((adjustTimes s e).1)) = secMicro (wallOf s) ∧
    (adjustTimes s e).2 = replaceHM 17 0 (wallOf e) - amsOffset e ∧
    (amsOffset ((adjustTimes s e).2) = amsOffset e →
      dayOf (wallOf ((adjustTimes s e).2)) = dayOf (wallOf e) ∧
      hourOf (wallOf ((adjustTimes s e).2)) = 17 ∧
      minuteOf (wallOf ((adjustTimes s e).2)) = 0 ∧
      secMicro (wallOf ((adjustTimes s e).2)) = secMicro (wallOf e)) := by
  have hloc := afternoon_local s e h13 h45
  have hsnd : (adjustTimes s e).2 = replaceHM 17 0 (wallOf e) - amsOffset e := by
    rw [adjust_afternoon s e h13 h45]
  refine ⟨hloc.1, hloc.2.1, hloc.2.2.1, hloc.2.2.2, hsnd, ?_⟩
  intro hoff
  rw [hsnd] at hoff
  rw [hsnd]
  exact replace_local 17 0 (by norm_num) (by norm_num) (by norm_num) (by norm_num) e hoff

/-- C2 counterexample: the event with start 2024-03-30T12:45:00Z (13:45
Amsterdam) and end 2024-03-31T00:30:00Z (01:30 Amsterdam, just before the
spring daylight-saving transition) is rewritten to an end instant whose
Amsterdam local time is 18:00, not 17:00 as the claim states. -/
theorem C2_counterexample :
    hourOf (wallOf 1711802700000000) = 13 ∧
    minuteOf (wallOf 1711802700000000) = 45 ∧
    hourOf (wallOf ((adjustTimes 1711802700000000 1711845000000000).2)) = 18 ∧
    ¬ hourOf (wallOf ((adjustTimes 1711802700000000 1711845000000000).2)) = 17 := by
  decide

/-- C2 witness: the E2 scenario, start 2024-01-10T12:45:00Z (13:45 Amsterdam
in winter) and end 2024-01-10T13:30:00Z, is rewritten to 12:00Z (13:00 local)
and 16:00Z (17:00 local). -/
theorem C2_witness :
    hourOf (wallOf ((adjustTimes 1704890700000000 1704893400000000).1)) = 13 ∧
    minuteOf (wallOf ((adjustTimes 1704890700000000 1704893400000000).1)) = 0 ∧
    hourOf (wallOf ((adjustTimes 1704890700000000 1704893400000000).2)) = 17 ∧
    adjustTimes 1704890700000000 1704893400000000 =
      (1704888000000000, 1704902400000000) := by
  have h := C2_afternoon_shift 1704890700000000 1704893400000000 (by decide) (by decide)
  exact ⟨h.2.1, h.2.2.1, (h.2.2.2.2.2 (by decide)).2.1, by decide⟩

/-- C3: when the converted Amsterdam-local start reads neither 08:45 nor
13:45 — the rules compare only the hour and minute fields — the adjustment
returns exactly the input instants: the Amsterdam-then-UTC round-trip is
instant-preserving. -/
theorem C3_pass_through (s e : Int)
    (h1 : ¬(hourOf (wallOf s) = 8 ∧ minuteOf (wallOf s) = 45))
    (h2 : ¬(hourOf (wallOf s) = 13 ∧ minuteOf (wallOf s) = 45)) :
    adjustTimes s e = (s, e) :=
  adjust_pass s e h1 h2

/-- C3 witness: an event at Amsterdam local 10:00 (09:00Z on 2024-01-10)
passes through unchanged. -/
theorem C3_witness :
    adjustTimes 1704877200000000 1704880800000000 =
      (1704877200000000, 1704880800000000) :=
  C3_pass_through 1704877200000000 1704880800000000 (by decide) (by decide)

/-- C9: the adjustment is idempotent: feeding the two output instants back
through the normalizer reproduces them, because no output start converts to a
local 08:45 or 13:45 (a shifted start reads 09:00 or 13:00 sharp, and an
unshifted one failed both comparisons already). -/
theorem C9_idempotent (s e : Int) :
    adjustTimes (adjustTimes s e).1 (adjustTimes s e).2 = adjustTimes s e := by
  by_cases h1 : hourOf (wallOf s) = 8 ∧ minuteOf (wallOf s) = 45
  · have hloc := morning_local s e h1.1 h1.2
    have hp := adjust_pass ((adjustTimes s e).1) ((adjustTimes s e).2)
      (by intro hc; have h9 := hloc.2.1; omega)
      (by intro hc; have h9 := hloc.2.1; omega)
    rw [hp]
  · by_cases h2 : hourOf (wallOf s) = 13 ∧ minuteOf (wallOf s) = 45
    · have hloc := afternoon_local s e h2.1 h2.2
      have hp := adjust_pass ((adjustTimes s e).1) ((adjustTimes s e).2)
        (by intro hc; have h13 := hloc.2.1; omega)
        (by intro hc; have h0 := hloc.2.2.1; omega)
      rw [hp]
    · rw [adjust_pass s e h1 h2]
      dsimp only
      exact adjust_pass s e h1 h2

/-!
Sanitizer model (lines 23 to 25 of the script): the fetched text is split
into lines with the Python splitlines rules, each line is stripped of leading
and trailing Python whitespace and has every non-breaking space removed by
replace, and the lines are rejoined with a single newline.
-/

/-- The Python str.strip whitespace set. -/
def pyIsSpace (c : Char) : Bool :=
  decide ((9 ≤ c.toNat ∧ c.toNat ≤ 13) ∨ c.toNat = 28 ∨ c.toNat = 29 ∨ c.toNat = 30 ∨
    c.toNat = 31 ∨ c.toNat = 32 ∨ c.toNat = 133 ∨ c.toNat = 160 ∨ c.toNat = 5760 ∨
    (8192 ≤ c.toNat ∧ c.toNat ≤ 8202) ∨ c.toNat = 8232 ∨ c.toNat = 8233 ∨
    c.toNat = 8239 ∨ c.toNat = 8287 ∨ c.toNat = 12288)

/-- The Python str.splitlines line-boundary set (carriage-return-newline is
handled as one boundary separately). -/
def isLineBreakChar (c : Char) : Bool :=
  decide (c.toNat = 10 ∨ c.toNat = 11 ∨ c.toNat = 12 ∨ c.toNat = 13 ∨ c.toNat = 28 ∨
    c.toNat = 29 ∨ c.toNat = 30 ∨ c.toNat = 133 ∨ c.toNat = 8232 ∨ c.toNat = 8233)

/-- Worker for the Python str.splitlines rules: a trailing boundary does not
open a final empty line. -/
def splitlinesAux : List Char → List Char → List (List Char)
  | [], acc => if acc.isEmpty then [] else [acc.reverse]
  | '\r' :: '\n' :: rest, acc => acc.reverse :: splitlinesAux rest []
  | c :: rest, acc =>
    if isLineBreakChar c then acc.reverse :: splitlinesAux rest []
    else splitlinesAux rest (c :: acc)

/-- Python str.splitlines on a character list. -/
def splitlinesPy (s : List Char) : List (List Char) := splitlinesAux s []

/-- Python str.strip(): drop leading and trailing whitespace. -/
def pyStrip (l : List Char) : List Char :=
  ((l.dropWhile pyIsSpace).reverse.dropWhile pyIsSpace).reverse

/-- The replace call removing every U+00A0 from a line. -/
def removeNbsp (l : List Char) : List Char := l.filter (fun c => !(c == '\u00A0'))

/-- One cleaned line: line.strip().replace(u00A0, empty). -/
def cleanLine (l : List Char) : List Char := removeNbsp (pyStrip l)

/-- The sanitized text of lines 23 to 25: cleaned lines joined by newline. -/
def cleanChars (text : List Char) : List Char :=
  List.intercalate ['\n'] ((splitlinesPy text).map cleanLine)

/-- String wrapper for the sanitizer. -/
def cleanText (s : String) : String := String.mk (cleanChars s.data)

/-- The sanitizer contract as the spec words it: the input split into lines,
each line stripped of leading and trailing whitespace and with every
non-breaking-space character removed, rejoined with a single newline
separator in the original line order. -/
def sanitizeSpec (text : List Char) : List Char :=
  List.intercalate ['\n']
    ((splitlinesPy text).map (fun line => (pyStrip line).filter (fun c => !(c == '\u00A0'))))

/- Structure lemmas for strip and filter. -/

theorem dropWhile_head_false {α : Type} (p : α → Bool) (l : List α) :
    ∀ c, (l.dropWhile p).head? = some c → p c = false := by
  induction l with
  | nil =>
    intro c h
    simp [List.dropWhile] at h
  | cons x t ih =>
    intro c h
    by_cases hx : p x
    · rw [List.dropWhile_cons_of_pos hx] at h
      exact ih c h
    · rw [List.dropWhile_cons] at h
      simp [hx] at h
      rw [← h]
      simpa using hx

theorem suffix_dropWhile {α : Type} (p : α → Bool) (l : List α) :
    ∃ t, l = t ++ l.dropWhile p := by
  induction l with
  | nil => exact ⟨[], rfl⟩
  | cons x xs ih =>
    by_cases hx : p x
    · obtain ⟨t, ht⟩ := ih
      refine ⟨x :: t, ?_⟩
      rw [List.dropWhile_cons_of_pos hx, List.cons_append]
      exact congrArg (x :: ·) ht
    · refine ⟨[], ?_⟩
      rw [List.dropWhile_cons]
      simp [hx]

theorem head_of_dropTrailing {α : Type} (p : α → Bool) (m : List α) (c : α)
    (h : ((m.reverse.dropWhile p).reverse).head? = some c) : m.head? = some c := by
  obtain ⟨t, ht⟩ := suffix_dropWhile p m.reverse
  have hm : m = (m.reverse.dropWhile p).reverse ++ t.reverse := by
    have h2 := congrArg List.reverse ht
    simpa [List.reverse_append] using h2
  rw [hm]
  cases hr : (m.reverse.dropWhile p).reverse with
  | nil => rw [hr] at h; simp at h
  | cons a u =>
    rw [hr] at h
    simp at h
    simp [h]

theorem filter_head_false {α : Type} (p q : α → Bool) (m : List α)
    (hm : ∀ x, m.head? = some x → p x = false)
    (hq : ∀ x, p x = false → q x = true) :
    ∀ c, (m.filter q).head? = some c → p c = false := by
  cases m with
  | nil =>
    intro c h
    simp at h
  | cons x t =>
    intro c h
    have px : p x = false := hm x rfl
    rw [List.filter_cons_of_pos (hq x px)] at h
    simp at h
    rw [← h]
    exact px

theorem pyIsSpace_of_nbsp : ∀ x : Char, pyIsSpace x = false → (!(x == '\u00A0')) = true := by
  intro x hx
  by_cases hxe : x = '\u00A0'
  · subst hxe
    exact absurd hx (by decide)
  · simp [hxe]

/-- Every cleaned line is free of non-breaking spaces and of leading and
trailing whitespace. -/
theorem cleanLine_clean (l : List Char) :
    (∀ c ∈ cleanLine l, ¬ c = '\u00A0') ∧
    (∀ c, (cleanLine l).head? = some c → pyIsSpace c = false) ∧
    (∀ c, (cleanLine l).reverse.head? = some c → pyIsSpace c = false) := by
  refine ⟨?_, ?_, ?_⟩
  · intro c hc he
    unfold cleanLine removeNbsp at hc
    rw [List.mem_filter] at hc
    rw [he] at hc
    simpa using hc.2
  · unfold cleanLine removeNbsp
    apply filter_head_false pyIsSpace _ (pyStrip l) ?_ pyIsSpace_of_nbsp
    intro x hx
    unfold pyStrip at hx
    exact dropWhile_head_false pyIsSpace l x
      (head_of_dropTrailing pyIsSpace (l.dropWhile pyIsSpace) x hx)
  · unfold cleanLine removeNbsp
    rw [← List.filter_reverse]
    apply filter_head_false pyIsSpace _ ((pyStrip l).reverse) ?_ pyIsSpace_of_nbsp
    intro x hx
    have hrev : (pyStrip l).reverse = (l.dropWhile pyIsSpace).reverse.dropWhile pyIsSpace := by
      unfold pyStrip
      exact List.reverse_reverse _
    rw [hrev] at hx
    exact dropWhile_head_false pyIsSpace _ x hx

/-- C7: the sanitizer output equals the input split into lines, each line
stripped of leading and trailing whitespace and with every non-breaking
space removed, rejoined with a single newline in the original order; and
each cleaned line indeed carries no non-breaking space and no leading or
trailing whitespace. -/
theorem C7_sanitizer (text : List Char) :
    cleanChars text = sanitizeSpec text ∧
    ∀ l ∈ (splitlinesPy text).map cleanLine,
      (∀ c ∈ l, ¬ c = '\u00A0') ∧
      (∀ c, l.head? = some c → pyIsSpace c = false) ∧
      (∀ c, l.reverse.head? = some c → pyIsSpace c = false) := by
  refine ⟨rfl, ?_⟩
  intro l hl
  rw [List.mem_map] at hl
  obtain ⟨l0, _, rfl⟩ := hl
  exact cleanLine_clean l0

/-- C7 witness: a concrete two-line text with stray spacing and non-breaking
spaces is cleaned line by line. -/
theorem C7_witness :
    cleanChars "  a\u00A0b \n\u00A0c  ".data = sanitizeSpec "  a\u00A0b \n\u00A0c  ".data ∧
    cleanChars "  a\u00A0b \n\u00A0c  ".data = "ab\nc".data ∧
    ∀ c ∈ cleanLine "  a\u00A0b ".data, ¬ c = '\u00A0' := by
  have h := C7_sanitizer "  a\u00A0b \n\u00A0c  ".data
  have hmem : cleanLine "  a\u00A0b ".data ∈
      (splitlinesPy "  a\u00A0b \n\u00A0c  ".data).map cleanLine := by decide
  exact ⟨h.1, by decide, (h.2 _ hmem).1⟩

/-!
Calendar model (lines 28 to 101 of the script). An event is its property
mapping; a DTSTART or DTEND value decodes either to a timezone-aware instant
or to a bare calendar date (an all-day event); any other shape, like a bare
date, makes the astimezone call raise an AttributeError which the generic
handler re-raises after printing.
-/

/-- A decoded date-time property value: either a timezone-aware instant
(microseconds since epoch) or a bare calendar date (day number). -/
inductive TimeValue where
  | instant (t : Int)
  | dateOnly (d : Int)
deriving DecidableEq

/-- A property value on a component: a decoded time value or plain text. -/
inductive PropValue where
  | time (v : TimeValue)
  | text (s : String)
deriving DecidableEq

/-- One VEVENT: its ordered property list (keys stored uppercase). -/
structure VEvent where
  props : List (String × PropValue)
deriving DecidableEq

/-- The parsed calendar: top-level properties and the walked VEVENT list. -/
structure VCalendar where
  props : List (String × PropValue)
  events : List VEvent
deriving DecidableEq

/-- First value bound to a key, as the component mapping lookup. -/
def getProp : List (String × PropValue) → String → Option PropValue
  | [], _ => none
  | (k, v) :: rest, key => if k = key then some v else getProp rest key

/-- component.get with the N/A default of line 45. -/
def uidOf (ev : VEvent) : PropValue :=
  (getProp ev.props "UID").getD (PropValue.text "N/A")

/-- The Python exceptions the pipeline can raise after the fetch. -/
inductive PyError where
  | attributeError
  | valueError
deriving DecidableEq

/-- Result of component.decoded followed by astimezone (lines 49 to 54): a
bare date or a text value has no astimezone method and raises. -/
def decodeInstant : PropValue → Except PyError Int
  | .time (.instant t) => .ok t
  | .time (.dateOnly _) => .error .attributeError
  | .text _ => .error .attributeError

/-- The two print diagnostics of the event loop (lines 46 and 78). -/
inductive LogEntry where
  | skippedMissing (uid : PropValue)
  | adjusted (uid : Option PropValue) (sh sm eh em : Int)
deriving DecidableEq

/-- The properties copied to the rebuilt event (lines 71 to 73): everything
except DTSTART and DTEND, in order. -/
def otherProps (ev : VEvent) : List (String × PropValue) :=
  ev.props.filter (fun kv => !(kv.1 == "DTSTART") && !(kv.1 == "DTEND"))

/-- The property list of the rebuilt event (lines 70 to 75): the copied
properties followed by the new DTSTART and DTEND. -/
def rebuiltProps (ev : VEvent) (s' e' : Int) : List (String × PropValue) :=
  otherProps ev ++
    [("DTSTART", PropValue.time (TimeValue.instant s')),
     ("DTEND", PropValue.time (TimeValue.instant e'))]

/-- One iteration of the event loop (lines 42 to 78): skip and log when
DTSTART or DTEND is missing, raise when a value does not decode to an
aware instant, otherwise rebuild the event with adjusted times and log. -/
def processOne (ev : VEvent) : Except PyError (Option VEvent × LogEntry) :=
  match getProp ev.props "DTSTART", getProp ev.props "DTEND" with
  | some vs, some ve =>
    match decodeInstant vs with
    | .error err => .error err
    | .ok s =>
      match decodeInstant ve with
      | .error err => .error err
      | .ok e =>
        .ok (some ⟨rebuiltProps ev (adjustTimes s e).1 (adjustTimes s e).2⟩,
          LogEntry.adjusted (getProp ev.props "UID")
            (hourOf (shiftWalls (wallOf s) (wallOf e)).1)
            (minuteOf (shiftWalls (wallOf s) (wallOf e)).1)
            (hourOf (shiftWalls (wallOf s) (wallOf e)).2)
            (minuteOf (shiftWalls (wallOf s) (wallOf e)).2))
  | _, _ => .ok (none, LogEntry.skippedMissing (uidOf ev))

/-- The whole event loop: output events in order plus diagnostics, or the
first raised error. -/
def processEvents : List VEvent → Except PyError (List VEvent × List LogEntry)
  | [] => .ok ([], [])
  | ev :: rest =>
    match processOne ev with
    | .error err => .error err
    | .ok (o, lg) =>
      match processEvents rest with
      | .error err => .error err
      | .ok (os, lgs) => .ok (o.toList ++ os, lg :: lgs)

theorem processOne_skip (ev : VEvent)
    (h : getProp ev.props "DTSTART" = none ∨ getProp ev.props "DTEND" = none) :
    processOne ev = .ok (none, LogEntry.skippedMissing (uidOf ev)) := by
  rcases h with h | h
  · simp [processOne, h]
  · cases h1 : getProp ev.props "DTSTART" with
    | none => simp [processOne, h1]
    | some vs => simp [processOne, h1, h]

theorem decodeInstant_errors (v : PropValue) (err : PyError)
    (h : decodeInstant v = .error err) : err = PyError.attributeError := by
  rcases v with (t | d) | str <;> simp [decodeInstant] at h <;> exact h.symm

theorem processOne_error_eq (ev : VEvent) (err : PyError)
    (h : processOne ev = .error err) : err = PyError.attributeError := by
  unfold processOne at h
  rcases h1 : getProp ev.props "DTSTART" with _ | vs <;> rw [h1] at h
  · simp at h
  · rcases h2 : getProp ev.props "DTEND" with _ | ve <;> rw [h2] at h
    · simp at h
    · rcases vs with (t | d) | str <;> rcases ve with (t2 | d2) | str2 <;>
        simp [decodeInstant] at h <;> exact h.symm

theorem processEvents_append (a b : List VEvent) :
    processEvents (a ++ b) =
      match processEvents a, processEvents b with
      | .ok (o1, l1), .ok (o2, l2) => .ok (o1 ++ o2, l1 ++ l2)
      | .error err, _ => .error err
      | .ok _, .error err => .error err := by
  induction a with
  | nil =>
    cases hb : processEvents b with
    | error err =>
      rw [List.nil_append, hb]
      simp [processEvents]
    | ok r =>
      obtain ⟨o2, l2⟩ := r
      rw [List.nil_append, hb]
      simp [processEvents]
  | cons ev a ih =>
    rw [List.cons_append]
    cases h1 : processOne ev with
    | error err => simp [processEvents, h1]
    | ok r =>
      obtain ⟨o, lg⟩ := r
      simp only [processEvents, h1]
      rw [ih]
      cases ha : processEvents a <;> cases hb : processEvents b <;>
        simp [List.append_assoc]

/- Lookup facts about the rebuilt event property list. -/

theorem getProp_append_cases (l1 l2 : List (String × PropValue)) (k : String) :
    getProp (l1 ++ l2) k =
      match getProp l1 k with
      | some v => some v
      | none => getProp l2 k := by
  induction l1 with
  | nil => rfl
  | cons kv rest ih =>
    obtain ⟨k1, v1⟩ := kv
    by_cases hk : k1 = k
    · simp [getProp, hk]
    · simp [getProp, hk, ih]

theorem getProp_otherProps_ne (ev : VEvent) (k : String)
    (h1 : ¬ k = "DTSTART") (h2 : ¬ k = "DTEND") :
    getProp (otherProps ev) k = getProp ev.props k := by
  unfold otherProps
  induction ev.props with
  | nil => rfl
  | cons kv rest ih =>
    obtain ⟨k1, v1⟩ := kv
    rw [List.filter_cons]
    by_cases hpred : (!(k1 == "DTSTART") && !(k1 == "DTEND")) = true
    · rw [if_pos hpred]
      by_cases hk : k1 = k
      · simp [getProp, hk]
      · simp only [getProp, if_neg hk]
        exact ih
    · rw [if_neg hpred]
      have hk : ¬ k1 = k := by
        intro hc
        subst hc
        simp [h1, h2] at hpred
      rw [ih]
      simp [getProp, hk]

theorem getProp_otherProps_dtstart (ev : VEvent) :
    getProp (otherProps ev) "DTSTART" = none := by
  unfold otherProps
  induction ev.props with
  | nil => rfl
  | cons kv rest ih =>
    obtain ⟨k1, v1⟩ := kv
    rw [List.filter_cons]
    by_cases hpred : (!(k1 == "DTSTART") && !(k1 == "DTEND")) = true
    · rw [if_pos hpred]
      have hk : ¬ k1 = "DTSTART" := by
        intro hc
        subst hc
        simp at hpred
      simp only [getProp, if_neg hk]
      exact ih
    · rw [if_neg hpred]
      exact ih

theorem getProp_otherProps_dtend (ev : VEvent) :
    getProp (otherProps ev) "DTEND" = none := by
  unfold otherProps
  induction ev.props with
  | nil => rfl
  | cons kv rest ih =>
    obtain ⟨k1, v1⟩ := kv
    rw [List.filter_cons]
    by_cases hpred : (!(k1 == "DTSTART") && !(k1 == "DTEND")) = true
    · rw [if_pos hpred]
      have hk : ¬ k1 = "DTEND" := by
        intro hc
        subst hc
        simp at hpred
      simp only [getProp, if_neg hk]
      exact ih
    · rw [if_neg hpred]
      exact ih

theorem getProp_rebuilt_ne (ev : VEvent) (s' e' : Int) (k : String)
    (h1 : ¬ k = "DTSTART") (h2 : ¬ k = "DTEND") :
    getProp (rebuiltProps ev s' e') k = getProp ev.props k := by
  unfold rebuiltProps
  rw [getProp_append_cases, getProp_otherProps_ne ev k h1 h2]
  cases hv : getProp ev.props k with
  | some v => rfl
  | none =>
    have h1' : ¬ "DTSTART" = k := fun hc => h1 hc.symm
    have h2' : ¬ "DTEND" = k := fun hc => h2 hc.symm
    simp [getProp, h1', h2']

theorem getProp_rebuilt_dtstart (ev : VEvent) (s' e' : Int) :
    getProp (rebuiltProps ev s' e') "DTSTART" =
      some (PropValue.time (TimeValue.instant s')) := by
  unfold rebuiltProps
  rw [getProp_append_cases, getProp_otherProps_dtstart]
  simp [getProp]

theorem getProp_rebuilt_dtend (ev : VEvent) (s' e' : Int) :
    getProp (rebuiltProps ev s' e') "DTEND" =
      some (PropValue.time (TimeValue.instant e')) := by
  unfold rebuiltProps
  rw [getProp_append_cases, getProp_otherProps_dtend]
  simp [getProp]

/-!
Run model: the main function (lines 13 to 101). The fetch outcome and the
parser are parameters: a transport failure or a bad-status HTTPError both
arrive as a RequestException, and a parse failure as a ValueError caught by
the generic handler. File writes are recorded as a trace of operations.
-/

/-- A failed fetch: a transport-level RequestException (also raised when the
URL environment variable is absent) or a non-success HTTP status turned into
an HTTPError by raise_for_status (lines 17 and 18). -/
inductive FetchFailure where
  | transport (msg : String)
  | httpStatus (code : Int)
deriving DecidableEq

/-- The fatal outcomes of a run: the except branches at lines 96 and 99. -/
inductive RunError where
  | fetch (e : FetchFailure)
  | unexpected (e : PyError)
deriving DecidableEq

/-- Construction steps of the output calendar: new_cal.add at line 33 and
new_cal.add_component at line 77. -/
inductive BuildOp where
  | addProp (k : String) (v : PropValue)
  | addComponent (ev : VEvent)
deriving DecidableEq

/-- The construction trace of the output calendar: first every metadata
property of the source calendar (the loop at lines 32 and 33), then one
component per processed event (line 77), in processing order. -/
def newCalOps (cal : VCalendar) (outs : List VEvent) : List BuildOp :=
  cal.props.map (fun kv => BuildOp.addProp kv.1 kv.2) ++ outs.map BuildOp.addComponent

/-- Effect of one construction step on a calendar value. -/
def applyOp (c : VCalendar) : BuildOp → VCalendar
  | .addProp k v => ⟨c.props ++ [(k, v)], c.events⟩
  | .addComponent ev => ⟨c.props, c.events ++ [ev]⟩

/-- The output calendar: the construction trace replayed from an empty
calendar (line 29). -/
def buildNewCal (cal : VCalendar) (outs : List VEvent) : VCalendar :=
  (newCalOps cal outs).foldl applyOp ⟨[], []⟩

/-- Filesystem effects of the publish stage (lines 81 to 93). -/
inductive FsOp where
  | mkdirDocs
  | writeIcs (cal : VCalendar)
  | writeNoJekyll
deriving DecidableEq

/-- Outcome of one run: the propagated error or success, the filesystem
operations performed, and the per-event diagnostics printed. -/
structure RunResult where
  outcome : Except RunError Unit
  fsOps : List FsOp
  logs : List LogEntry

/-- The timeout passed to requests.get at line 17. -/
def requestTimeoutSeconds : Nat := 15

/-- The main function over a fetch outcome and a parser: sanitize, parse,
process every event, then create the output directory and write the
calendar file and the marker file; any error aborts before any write. -/
def runMain (fetched : Except FetchFailure String)
    (parse : String → Except PyError VCalendar) : RunResult :=
  match fetched with
  | .error err => ⟨.error (RunError.fetch err), [], []⟩
  | .ok text =>
    match parse (cleanText text) with
    | .error err => ⟨.error (RunError.unexpected err), [], []⟩
    | .ok cal =>
      match processEvents cal.events with
      | .error err => ⟨.error (RunError.unexpected err), [], []⟩
      | .ok (outs, logs) =>
        ⟨.ok (), [FsOp.mkdirDocs, FsOp.writeIcs (buildNewCal cal outs), FsOp.writeNoJekyll], logs⟩

/- Replaying the construction trace. -/

theorem foldl_addProps (ps : List (String × PropValue)) (c : VCalendar) :
    (ps.map (fun kv => BuildOp.addProp kv.1 kv.2)).foldl applyOp c =
      ⟨c.props ++ ps, c.events⟩ := by
  induction ps generalizing c with
  | nil => simp
  | cons kv rest ih =>
    obtain ⟨k, v⟩ := kv
    simp only [List.map_cons, List.foldl_cons]
    rw [ih]
    simp [applyOp]

theorem foldl_addComps (evs : List VEvent) (c : VCalendar) :
    (evs.map BuildOp.addComponent).foldl applyOp c = ⟨c.props, c.events ++ evs⟩ := by
  induction evs generalizing c with
  | nil => simp
  | cons ev rest ih =>
    simp only [List.map_cons, List.foldl_cons]
    rw [ih]
    simp [applyOp]

theorem buildNewCal_eq (cal : VCalendar) (outs : List VEvent) :
    buildNewCal cal outs = ⟨cal.props, outs⟩ := by
  unfold buildNewCal newCalOps
  rw [List.foldl_append, foldl_addProps, foldl_addComps]
  simp

/-- C4: an event lacking DTSTART or DTEND contributes no output event, only
the skip diagnostic naming its UID (or N/A), and the rest of the run is
exactly the run without it: such a skip is never fatal. -/
theorem C4_skip_missing (pre post : List VEvent) (ev : VEvent)
    (h : getProp ev.props "DTSTART" = none ∨ getProp ev.props "DTEND" = none) :
    processEvents (pre ++ ev :: post) =
      match processEvents pre, processEvents post with
      | .ok (o1, l1), .ok (o2, l2) =>
          .ok (o1 ++ o2, l1 ++ LogEntry.skippedMissing (uidOf ev) :: l2)
      | .error err, _ => .error err
      | .ok _, .error err => .error err := by
  rw [processEvents_append pre (ev :: post)]
  have hstep : processEvents (ev :: post) =
      match processEvents post with
      | .error err => .error err
      | .ok (os, lgs) => .ok (os, LogEntry.skippedMissing (uidOf ev) :: lgs) := by
    simp only [processEvents, processOne_skip ev h]
    cases hq : processEvents post with
    | error err => rfl
    | ok r =>
      obtain ⟨o2, l2⟩ := r
      simp
  rw [hstep]
  cases hp : processEvents pre with
  | error err => rfl
  | ok r1 =>
    obtain ⟨o1, l1⟩ := r1
    cases hq : processEvents post with
    | error err => rfl
    | ok r2 =>
      obtain ⟨o2, l2⟩ := r2
      rfl

/-- C4 witness: the E3 scenario, an event with a UID and a DTSTART but no
DTEND, is dropped from the output, logged by its UID, and the run succeeds. -/
theorem C4_witness :
    processEvents [⟨[("UID", PropValue.text "E3"),
        ("DTSTART", PropValue.time (TimeValue.instant 1704872700000000))]⟩] =
      .ok ([], [LogEntry.skippedMissing (PropValue.text "E3")]) := by
  have h := C4_skip_missing [] []
    ⟨[("UID", PropValue.text "E3"),
      ("DTSTART", PropValue.time (TimeValue.instant 1704872700000000))]⟩
    (Or.inr (by decide))
  simpa using h

/-- C5: a processed event is rebuilt with every property other than DTSTART
and DTEND carried over with unchanged value — lookup of any other key in the
output equals lookup in the source — and only the two time properties are
replaced, bound to the adjusted instants. -/
theorem C5_rebuild (ev : VEvent) (s e : Int)
    (hs : getProp ev.props "DTSTART" = some (PropValue.time (TimeValue.instant s)))
    (he : getProp ev.props "DTEND" = some (PropValue.time (TimeValue.instant e))) :
    processOne ev = .ok
      (some ⟨rebuiltProps ev (adjustTimes s e).1 (adjustTimes s e).2⟩,
        LogEntry.adjusted (getProp ev.props "UID")
          (hourOf (shiftWalls (wallOf s) (wallOf e)).1)
          (minuteOf (shiftWalls (wallOf s) (wallOf e)).1)
          (hourOf (shiftWalls (wallOf s) (wallOf e)).2)
          (minuteOf (shiftWalls (wallOf s) (wallOf e)).2)) ∧
    (∀ k, ¬ k = "DTSTART" → ¬ k = "DTEND" →
      getProp (rebuiltProps ev (adjustTimes s e).1 (adjustTimes s e).2) k =
        getProp ev.props k) ∧
    getProp (rebuiltProps ev (adjustTimes s e).1 (adjustTimes s e).2) "DTSTART" =
      some (PropValue.time (TimeValue.instant (adjustTimes s e).1)) ∧
    getProp (rebuiltProps ev (adjustTimes s e).1 (adjustTimes s e).2) "DTEND" =
      some (PropValue.time (TimeValue.instant (adjustTimes s e).2)) := by
  refine ⟨?_, ?_, getProp_rebuilt_dtstart ev _ _, getProp_rebuilt_dtend ev _ _⟩
  · simp [processOne, hs, he, decodeInstant]
  · intro k h1 h2
    exact getProp_rebuilt_ne ev _ _ k h1 h2

/-- Property list of the E1 scenario event. -/
def e1props : List (String × PropValue) :=
  [("UID", PropValue.text "E1"), ("SUMMARY", PropValue.text "Shift"),
   ("DTSTART", PropValue.time (TimeValue.instant 1704872700000000)),
   ("DTEND", PropValue.time (TimeValue.instant 1704875400000000))]

/-- C5 witness: processing the E1 event keeps UID and SUMMARY verbatim and
replaces only the two time properties. -/
theorem C5_witness :
    processOne ⟨e1props⟩ = .ok
      (some ⟨[("UID", PropValue.text "E1"), ("SUMMARY", PropValue.text "Shift"),
        ("DTSTART", PropValue.time (TimeValue.instant 1704873600000000)),
        ("DTEND", PropValue.time (TimeValue.instant 1704888000000000))]⟩,
        LogEntry.adjusted (some (PropValue.text "E1")) 9 0 13 0) ∧
    getProp (rebuiltProps ⟨e1props⟩ 1704873600000000 1704888000000000) "SUMMARY" =
      getProp e1props "SUMMARY" := by
  have h := C5_rebuild ⟨e1props⟩ 1704872700000000 1704875400000000 (by decide) (by decide)
  exact ⟨h.1.trans (by rfl), h.2.1 "SUMMARY" (by decide) (by decide)⟩

/-- C6: when the fetch fails — transport error, absent URL, or non-success
status under the 15-second bounded wait — the run terminates with that fetch
error and performs no filesystem operation at all: neither the calendar file
nor the marker file is written, and no diagnostics are produced. -/
theorem C6_fetch_failure (err : FetchFailure)
    (parse : String → Except PyError VCalendar) :
    runMain (Except.error err) parse =
      ⟨Except.error (RunError.fetch err), [], []⟩ ∧
    requestTimeoutSeconds = 15 :=
  ⟨rfl, rfl⟩

/-- C8: every metadata property of the source calendar is copied into the
construction trace of the output calendar, the whole prefix of the trace is
exactly those property copies, everything after them is an event append, and
the built output calendar carries exactly the source properties. -/
theorem C8_metadata_first (cal : VCalendar) (outs : List VEvent) :
    (∀ kv ∈ cal.props, BuildOp.addProp kv.1 kv.2 ∈ newCalOps cal outs) ∧
    (newCalOps cal outs).take cal.props.length =
      cal.props.map (fun kv => BuildOp.addProp kv.1 kv.2) ∧
    (newCalOps cal outs).drop cal.props.length = outs.map BuildOp.addComponent ∧
    (buildNewCal cal outs).props = cal.props := by
  refine ⟨?_, ?_, ?_, ?_⟩
  · intro kv hkv
    unfold newCalOps
    exact List.mem_append_left _ (List.mem_map_of_mem _ hkv)
  · unfold newCalOps
    exact List.take_left' (by simp)
  · unfold newCalOps
    exact List.drop_left' (by simp)
  · rw [buildNewCal_eq]

/-- C8 witness: a calendar with one VERSION property and one processed event
produces the property copy strictly before the event append. -/
theorem C8_witness :
    BuildOp.addProp "VERSION" (PropValue.text "2.0") ∈
      newCalOps ⟨[("VERSION", PropValue.text "2.0")], []⟩ [⟨[]⟩] ∧
    (newCalOps ⟨[("VERSION", PropValue.text "2.0")], []⟩ [⟨[]⟩]).take 1 =
      [BuildOp.addProp "VERSION" (PropValue.text "2.0")] ∧
    (newCalOps ⟨[("VERSION", PropValue.text "2.0")], []⟩ [⟨[]⟩]).drop 1 =
      [BuildOp.addComponent ⟨[]⟩] ∧
    (buildNewCal ⟨[("VERSION", PropValue.text "2.0")], []⟩ [⟨[]⟩]).props =
      [("VERSION", PropValue.text "2.0")] := by
  have h := C8_metadata_first ⟨[("VERSION", PropValue.text "2.0")], []⟩ [⟨[]⟩]
  exact ⟨h.1 ("VERSION", PropValue.text "2.0") (by decide), h.2.1, h.2.2.1, h.2.2.2⟩

/-- True when the event has both time properties but at least one of them
decodes to a bare calendar date (an all-day event). -/
def hasDateValued (ev : VEvent) : Bool :=
  match getProp ev.props "DTSTART", getProp ev.props "DTEND" with
  | some (PropValue.time (TimeValue.dateOnly _)), some _ => true
  | some _, some (PropValue.time (TimeValue.dateOnly _)) => true
  | _, _ => false

theorem processOne_date_error (ev : VEvent) (h : hasDateValued ev = true) :
    processOne ev = .error PyError.attributeError := by
  unfold hasDateValued at h
  rcases h1 : getProp ev.props "DTSTART" with _ | vs <;> rw [h1] at h
  · simp at h
  · rcases h2 : getProp ev.props "DTEND" with _ | ve <;> rw [h2] at h
    · simp at h
    · rcases vs with (t | d) | str <;> rcases ve with (t2 | d2) | str2 <;>
        simp at h <;> simp [processOne, h1, h2, decodeInstant]

theorem processEvents_date_error (evs : List VEvent) (ev : VEvent)
    (hmem : ev ∈ evs) (hbad : hasDateValued ev = true) :
    processEvents evs = .error PyError.attributeError := by
  induction evs with
  | nil => cases hmem
  | cons hd tl ih =>
    rcases List.mem_cons.mp hmem with heq | hmem2
    · subst heq
      simp [processEvents, processOne_date_error ev hbad]
    · cases h1 : processOne hd with
      | error err =>
        have herr := processOne_error_eq hd err h1
        subst herr
        simp [processEvents, h1]
      | ok r =>
        obtain ⟨o, lg⟩ := r
        simp only [processEvents, h1]
        rw [ih hmem2]

/-- C10: an event carrying both time properties whose decoded values are
bare dates rather than aware instants makes the conversion raise; the run
aborts through the generic handler with the error re-raised and nothing is
written: such events are fatal to the whole run, not skipped. -/
theorem C10_all_day_fatal (text : String)
    (parse : String → Except PyError VCalendar) (cal : VCalendar)
    (hp : parse (cleanText text) = Except.ok cal)
    (ev : VEvent) (hmem : ev ∈ cal.events) (hbad : hasDateValued ev = true) :
    runMain (Except.ok text) parse =
      ⟨Except.error (RunError.unexpected PyError.attributeError), [], []⟩ := by
  have h1 : processEvents cal.events = .error PyError.attributeError :=
    processEvents_date_error cal.events ev hmem hbad
  simp [runMain, hp, h1]

/-- An all-day event calendar for the C10 witness. -/
def allDayCal : VCalendar :=
  ⟨[], [⟨[("DTSTART", PropValue.time (TimeValue.dateOnly 19723)),
          ("DTEND", PropValue.time (TimeValue.dateOnly 19724))]⟩]⟩

/-- C10 witness: a run whose parsed calendar holds one all-day event aborts
with the attribute error and writes nothing. -/
theorem C10_witness :
    runMain (Except.ok "") (fun _ => Except.ok allDayCal) =
      ⟨Except.error (RunError.unexpected PyError.attributeError), [], []⟩ :=
  C10_all_day_fatal "" (fun _ => Except.ok allDayCal) allDayCal rfl
    ⟨[("DTSTART", PropValue.time (TimeValue.dateOnly 19723)),
      ("DTEND", PropValue.time (TimeValue.dateOnly 19724))]⟩
    (by decide) (by decide)
